import Mathlib

/-!
Verification of the biofeedback-lab streaming pipeline.

This file gives a shallow embedding of the core components of the
repository and proves properties about them:

* `controller` — the integral controller of `code/controller.py`
  (`AudioParams`, `update_audio_params`).
* `polar_hrv` — the HRV stream of
  `backups/pi_backup_latest/code/polar_hrv.py` (`compute_rmssd`, the
  frame parser and baseline state machine of `hrm_notification_handler`,
  and the z-score queue).
* `polar_run` / `session_stress_csv` — the session loop and the two
  `compute_pre_post` summary functions.

Python floats are idealised as exact rationals (`ℚ`); `math.sqrt` and
`statistics.pstdev` land in `ℝ` via `Real.sqrt`.
-/

namespace controller

/-- `AudioParams` dataclass of `controller.py` (tempo, pitch, volume). -/
structure AudioParams where
  tempo : ℚ
  pitch : ℚ
  volume : ℚ
deriving DecidableEq, Repr

/-- Dataclass defaults: `tempo=1.0, pitch=-2.0, volume=60.0`. -/
def AudioParams.init : AudioParams := ⟨1, -2, 60⟩

def HRV_SETPOINT : ℚ := 0

def TEMPO_MIN : ℚ := 0.85
def TEMPO_MAX : ℚ := 1.15
def PITCH_MIN : ℚ := -6.0
def PITCH_MAX : ℚ := 0.0
def VOLUME_MIN : ℚ := 52.0
def VOLUME_MAX : ℚ := 68.0

def HRV_KI_TEMPO : ℚ := 0.010
def HRV_KI_PITCH : ℚ := -0.030
def HRV_KI_VOLUME : ℚ := -0.400

def DT : ℚ := 1.0

/-- `update_audio_params` of `controller.py`.  The first match arm is the
integral-control path (`is_baseline` false and `hrv_z` present); every
other combination takes the relaxation branch (`if is_baseline or hrv_z
is None`). -/
def update_audio_params (params : AudioParams) (hrv_z : Option ℚ)
    (faa_z : Option ℚ) (is_baseline : Bool) (is_post_window : Bool) :
    AudioParams :=
  match is_baseline, hrv_z with
  | false, some z =>
      let hrv_error := HRV_SETPOINT - z
      let tempo := params.tempo + HRV_KI_TEMPO * hrv_error * DT
      let pitch := params.pitch + HRV_KI_PITCH * hrv_error * DT
      let volume := params.volume + HRV_KI_VOLUME * hrv_error * DT
      let pitch :=
        match faa_z with
        | some f => pitch + 0.15 * f
        | none => pitch
      let volume :=
        match faa_z with
        | some f => volume + 1.0 * f
        | none => volume
      { tempo := max TEMPO_MIN (min TEMPO_MAX tempo)
        pitch := max PITCH_MIN (min PITCH_MAX pitch)
        volume := max VOLUME_MIN (min VOLUME_MAX volume) }
  | _, _ =>
      let relax_alpha : ℚ := 0.02
      { tempo := params.tempo + relax_alpha * (1.0 - params.tempo)
        pitch := params.pitch + relax_alpha * (-2.0 - params.pitch)
        volume := params.volume + relax_alpha * (60.0 - params.volume) }

/-- All three parameters inside their configured clamp ranges. -/
def InRange (p : AudioParams) : Prop :=
  TEMPO_MIN ≤ p.tempo ∧ p.tempo ≤ TEMPO_MAX ∧
  PITCH_MIN ≤ p.pitch ∧ p.pitch ≤ PITCH_MAX ∧
  VOLUME_MIN ≤ p.volume ∧ p.volume ≤ VOLUME_MAX

instance (p : AudioParams) : Decidable (InRange p) := by
  unfold InRange; infer_instance

/-- One controller tick of a scripted input `(hrv_z, faa_z, is_baseline,
is_post_window)`. -/
def run_updates (p : AudioParams)
    (inputs : List (Option ℚ × Option ℚ × Bool × Bool)) : AudioParams :=
  inputs.foldl (fun q i => update_audio_params q i.1 i.2.1 i.2.2.1 i.2.2.2) p

lemma clamp_mem (lo hi x : ℚ) (h : lo ≤ hi) :
    lo ≤ max lo (min hi x) ∧ max lo (min hi x) ≤ hi :=
  ⟨le_max_left _ _, max_le h (min_le_left _ _)⟩

lemma integral_branch_in_range (t q v : ℚ) :
    InRange ⟨max TEMPO_MIN (min TEMPO_MAX t), max PITCH_MIN (min PITCH_MAX q),
      max VOLUME_MIN (min VOLUME_MAX v)⟩ := by
  refine ⟨le_max_left _ _, max_le ?_ (min_le_left _ _),
    le_max_left _ _, max_le ?_ (min_le_left _ _),
    le_max_left _ _, max_le ?_ (min_le_left _ _)⟩ <;>
    norm_num [TEMPO_MIN, TEMPO_MAX, PITCH_MIN, PITCH_MAX, VOLUME_MIN, VOLUME_MAX]

lemma relax_branch_in_range (p : AudioParams) (hp : InRange p) :
    InRange ⟨p.tempo + 0.02 * (1.0 - p.tempo), p.pitch + 0.02 * (-2.0 - p.pitch),
      p.volume + 0.02 * (60.0 - p.volume)⟩ := by
  obtain ⟨h1, h2, h3, h4, h5, h6⟩ := hp
  simp only [InRange, TEMPO_MIN, TEMPO_MAX, PITCH_MIN, PITCH_MAX,
    VOLUME_MIN, VOLUME_MAX] at *
  norm_num at *
  refine ⟨?_, ?_, ?_, ?_, ?_, ?_⟩ <;> nlinarith

lemma update_step_in_range (p : AudioParams) (hz fz : Option ℚ) (b pw : Bool)
    (hp : InRange p) : InRange (update_audio_params p hz fz b pw) := by
  cases b <;> cases hz <;> try exact relax_branch_in_range p hp
  cases fz <;> exact integral_branch_in_range _ _ _

/-- C1 (amended): every update returns parameters within the configured
ranges provided the previous `AudioParams` is itself within range; hence
for any finite input sequence beginning at an in-range state (such as the
dataclass default), every intermediate and final state is in range.  (The
unrestricted claim fails: the relaxation branch does not clamp.) -/
theorem update_audio_params_ranges :
    (∀ p hz fz b pw, InRange p → InRange (update_audio_params p hz fz b pw)) ∧
    (∀ inputs p, InRange p → InRange (run_updates p inputs)) := by
  refine ⟨update_step_in_range, ?_⟩
  intro inputs
  induction inputs with
  | nil => intro p hp; exact hp
  | cons i is ih =>
      intro p hp
      exact ih _ (update_step_in_range p i.1 i.2.1 i.2.2.1 i.2.2.2 hp)

/-- C1 witness: the dataclass default is in range, and stays in range
through a mixed scripted input sequence covering both branches. -/
theorem update_audio_params_ranges_witness :
    InRange AudioParams.init ∧
    InRange (run_updates AudioParams.init
      [(some 3, none, false, false), (none, none, true, false),
       (some (-5), some 2, false, false)]) :=
  ⟨by norm_num [InRange, AudioParams.init, TEMPO_MIN, TEMPO_MAX, PITCH_MIN,
      PITCH_MAX, VOLUME_MIN, VOLUME_MAX],
   update_audio_params_ranges.2 _ _
     (by norm_num [InRange, AudioParams.init, TEMPO_MIN, TEMPO_MAX, PITCH_MIN,
        PITCH_MAX, VOLUME_MIN, VOLUME_MAX])⟩

/-- C1 counterexample: an update taken in the baseline/missing-z
relaxation branch from an out-of-range previous state (tempo 2) returns
tempo 1.98, outside `[TEMPO_MIN, TEMPO_MAX]`: the relaxation branch does
not clamp its result. -/
theorem relax_branch_escapes_range :
    ¬ InRange (update_audio_params ⟨2, -2, 60⟩ none none true false) := by
  have hb : update_audio_params ⟨2, -2, 60⟩ none none true false =
      ⟨(2 : ℚ) + 0.02 * (1.0 - 2), (-2 : ℚ) + 0.02 * (-2.0 - (-2)),
        (60 : ℚ) + 0.02 * (60.0 - 60)⟩ := rfl
  rw [hb]
  simp only [InRange, TEMPO_MIN, TEMPO_MAX, PITCH_MIN, PITCH_MAX,
    VOLUME_MIN, VOLUME_MAX]
  norm_num

lemma relax_step_toward (x c : ℚ) :
    |x + 0.02 * (c - x) - c| ≤ |x - c| ∧
      0 ≤ (x + 0.02 * (c - x) - c) * (x - c) := by
  have h : x + 0.02 * (c - x) - c = 0.98 * (x - c) := by ring
  constructor
  · rw [h, abs_mul]
    have h2 : |(0.98 : ℚ)| = 0.98 := by norm_num
    rw [h2]
    nlinarith [abs_nonneg (x - c)]
  · rw [h]; nlinarith [sq_nonneg (x - c)]

/-- C6: whenever a tick takes the relaxation branch (`is_baseline` true or
`hrv_z` absent), each parameter's distance to its neutral constant
(tempo 1.0, pitch -2.0, volume 60.0) does not increase, and the parameter
never crosses to the other side of its neutral value (the signed offsets
before and after the tick have non-negative product).  This holds from any
starting state, so repeated such ticks move monotonically toward neutral
without overshoot. -/
theorem relax_ticks_monotone_no_overshoot :
    ∀ p hz fz b pw, b = true ∨ hz = none →
      (|(update_audio_params p hz fz b pw).tempo - 1.0| ≤ |p.tempo - 1.0| ∧
        0 ≤ ((update_audio_params p hz fz b pw).tempo - 1.0) * (p.tempo - 1.0)) ∧
      (|(update_audio_params p hz fz b pw).pitch - (-2.0)| ≤ |p.pitch - (-2.0)| ∧
        0 ≤ ((update_audio_params p hz fz b pw).pitch - (-2.0)) * (p.pitch - (-2.0))) ∧
      (|(update_audio_params p hz fz b pw).volume - 60.0| ≤ |p.volume - 60.0| ∧
        0 ≤ ((update_audio_params p hz fz b pw).volume - 60.0) * (p.volume - 60.0)) := by
  intro p hz fz b pw h
  have hb : update_audio_params p hz fz b pw =
      ⟨p.tempo + 0.02 * (1.0 - p.tempo), p.pitch + 0.02 * (-2.0 - p.pitch),
        p.volume + 0.02 * (60.0 - p.volume)⟩ := by
    rcases h with h | h
    · subst h; cases hz <;> rfl
    · subst h; cases b <;> rfl
  rw [hb]
  exact ⟨relax_step_toward p.tempo 1.0,
    relax_step_toward p.pitch (-2.0), relax_step_toward p.volume 60.0⟩

/-- C6 witness: a concrete baseline tick from an arbitrary state. -/
theorem relax_ticks_monotone_no_overshoot_witness :
    (|(update_audio_params ⟨2, 1, 40⟩ (some 5) none true false).tempo - 1.0| ≤
        |(AudioParams.tempo ⟨2, 1, 40⟩) - 1.0| ∧
      0 ≤ ((update_audio_params ⟨2, 1, 40⟩ (some 5) none true false).tempo - 1.0) *
        ((AudioParams.tempo ⟨2, 1, 40⟩) - 1.0)) ∧
    (|(update_audio_params ⟨2, 1, 40⟩ (some 5) none true false).pitch - (-2.0)| ≤
        |(AudioParams.pitch ⟨2, 1, 40⟩) - (-2.0)| ∧
      0 ≤ ((update_audio_params ⟨2, 1, 40⟩ (some 5) none true false).pitch - (-2.0)) *
        ((AudioParams.pitch ⟨2, 1, 40⟩) - (-2.0))) ∧
    (|(update_audio_params ⟨2, 1, 40⟩ (some 5) none true false).volume - 60.0| ≤
        |(AudioParams.volume ⟨2, 1, 40⟩) - 60.0| ∧
      0 ≤ ((update_audio_params ⟨2, 1, 40⟩ (some 5) none true false).volume - 60.0) *
        ((AudioParams.volume ⟨2, 1, 40⟩) - 60.0)) :=
  relax_ticks_monotone_no_overshoot ⟨2, 1, 40⟩ (some 5) none true false (Or.inl rfl)

/-- Repeated identical ticks `hrv_z = -1.0`, `faa_z` absent,
`is_baseline = false`, starting from the dataclass default (tempo 1.0). -/
def neg_one_ticks : ℕ → AudioParams
  | 0 => AudioParams.init
  | n + 1 => update_audio_params (neg_one_ticks n) (some (-1.0)) none false false

lemma neg_one_ticks_succ_tempo (n : ℕ) :
    (neg_one_ticks (n + 1)).tempo =
      max TEMPO_MIN (min TEMPO_MAX ((neg_one_ticks n).tempo +
        HRV_KI_TEMPO * (HRV_SETPOINT - (-1.0)) * DT)) := rfl

lemma neg_one_ticks_tempo_ramp :
    ∀ k, k ≤ 15 → (neg_one_ticks k).tempo = 1 + (k : ℚ) / 100 := by
  intro k
  induction k with
  | zero => intro _; norm_num [neg_one_ticks, AudioParams.init]
  | succ n ih =>
      intro hn
      have hn' : n ≤ 15 := Nat.le_of_succ_le hn
      have hcast : (n : ℚ) ≤ 14 := by
        have : n ≤ 14 := Nat.lt_succ_iff.mp hn
        exact_mod_cast this
      rw [neg_one_ticks_succ_tempo, ih hn']
      simp only [TEMPO_MIN, TEMPO_MAX, HRV_KI_TEMPO, HRV_SETPOINT, DT]
      push_cast
      rw [min_eq_right (by norm_num; linarith), max_eq_right (by norm_num; linarith)]
      ring

lemma neg_one_ticks_tempo_pinned :
    ∀ k, 15 ≤ k → (neg_one_ticks k).tempo = TEMPO_MAX := by
  intro k hk
  induction k, hk using Nat.le_induction with
  | base =>
      rw [neg_one_ticks_tempo_ramp 15 le_rfl]
      norm_num [TEMPO_MAX]
  | succ n hn ih =>
      rw [neg_one_ticks_succ_tempo, ih]
      simp only [TEMPO_MIN, TEMPO_MAX, HRV_KI_TEMPO, HRV_SETPOINT, DT]
      norm_num

/-- C7: starting from tempo 1.0, repeated ticks with `hrv_z = -1.0`,
`faa_z` absent, `is_baseline = false` strictly increase tempo by
`HRV_KI_TEMPO * 1.0 * DT = 0.01` per tick for the first 15 ticks, reaching
`TEMPO_MAX = 1.15` at tick 15; every further identical tick returns tempo
exactly `TEMPO_MAX`. -/
theorem tempo_ramps_then_pins_at_max :
    (∀ k, k < 15 → (neg_one_ticks (k + 1)).tempo = (neg_one_ticks k).tempo + 1 / 100 ∧
      (neg_one_ticks k).tempo < (neg_one_ticks (k + 1)).tempo) ∧
    (neg_one_ticks 15).tempo = TEMPO_MAX ∧
    (∀ k, 15 ≤ k → (neg_one_ticks k).tempo = TEMPO_MAX) := by
  refine ⟨?_, neg_one_ticks_tempo_pinned 15 le_rfl, neg_one_ticks_tempo_pinned⟩
  intro k hk
  have h1 : (neg_one_ticks k).tempo = 1 + (k : ℚ) / 100 :=
    neg_one_ticks_tempo_ramp k (Nat.le_of_lt hk)
  have h2 : (neg_one_ticks (k + 1)).tempo = 1 + ((k : ℚ) + 1) / 100 := by
    have := neg_one_ticks_tempo_ramp (k + 1) hk
    rw [this]; push_cast; ring
  constructor
  · rw [h1, h2]; ring
  · rw [h1, h2]; linarith

/-- C7 witness: the first tick raises tempo by 0.01, and tick 20 is pinned
at `TEMPO_MAX`. -/
theorem tempo_ramps_then_pins_at_max_witness :
    ((neg_one_ticks (0 + 1)).tempo = (neg_one_ticks 0).tempo + 1 / 100 ∧
      (neg_one_ticks 0).tempo < (neg_one_ticks (0 + 1)).tempo) ∧
    (neg_one_ticks 20).tempo = TEMPO_MAX :=
  ⟨tempo_ramps_then_pins_at_max.1 0 (by norm_num),
   tempo_ramps_then_pins_at_max.2.2 20 (by norm_num)⟩

end controller

namespace polar_hrv

/-- Successive differences `rr[i] - rr[i-1]` of `compute_rmssd`
(code lines 38-40), in window order. -/
def diffsOf (w : List ℚ) : List ℚ :=
  List.zipWith (fun a b => a - b) w.tail w

/-- `mean_sq` of `compute_rmssd`: mean of the squared successive
differences (ms²). -/
def mean_sq (w : List ℚ) : ℚ :=
  ((diffsOf w).map (fun d => d * d)).sum / (diffsOf w).length

/-- `compute_rmssd` of `polar_hrv.py`: `None` with fewer than 3 intervals
(or no diffs), else `sqrt(mean_sq) / 1000` (ms in, seconds out). -/
noncomputable def compute_rmssd (rr_ms_window : List ℚ) : Option ℝ :=
  if rr_ms_window.length < 3 then none
  else if diffsOf rr_ms_window = [] then none
  else some (Real.sqrt (mean_sq rr_ms_window) / 1000)

/-- The `while idx + 1 < len(data)` loop of the notification handler,
reading consecutive little-endian byte pairs: embedded as structural
recursion over the byte list from the start offset onward.  Each raw
value `data[idx] + 256 * data[idx+1]` is in units of 1/1024 s and is
converted to ms by `raw / 1024 * 1000`. -/
def pairsOf : List ℕ → List ℚ
  | b0 :: b1 :: rest => ((b0 : ℚ) + 256 * (b1 : ℚ)) / 1024 * 1000 :: pairsOf rest
  | _ => []

/-- `rr_values_ms` parsed from a frame starting at byte offset `idx`. -/
def rr_values_ms (data : List ℕ) (idx : ℕ) : List ℚ :=
  pairsOf (data.drop idx)

/-- Handler state held in the closure of `rmssd_z_stream`
(code lines 96-104). -/
structure HrvState where
  rr_ms_window : List ℚ
  baseline_rmssds : List ℝ
  baseline_done : Bool
  base_mean : ℝ
  base_std : ℝ
  queue : List ℝ

/-- Initial stream state: empty window, empty baseline accumulator,
baseline open, `base_mean = 0.0`, `base_std = 1.0`, empty queue. -/
def initState : HrvState := ⟨[], [], false, 0, 1, []⟩

/-- `asyncio.Queue.put_nowait`: `maxsize ≤ 0` means an unbounded queue; a
full bounded queue raises `QueueFull` (modelled as `none`).  The stream's
queue is created as `asyncio.Queue()`, i.e. `maxsize = 0`. -/
def queue_put_nowait (maxsize : ℤ) (q : List ℝ) (z : ℝ) : Option (List ℝ) :=
  if 0 < maxsize ∧ maxsize ≤ (q.length : ℤ) then none else some (q ++ [z])

/-- The handler's z push: `put_nowait` under `try/except QueueFull: pass`
(drop the sample if the queue reports full). -/
def push_z (q : List ℝ) (z : ℝ) : List ℝ :=
  match queue_put_nowait 0 q z with
  | some q2 => q2
  | none => q

/-- `statistics.mean`. -/
noncomputable def stat_mean (xs : List ℝ) : ℝ := xs.sum / xs.length

/-- `statistics.pvariance` (population variance). -/
noncomputable def stat_pvariance (xs : List ℝ) : ℝ :=
  ((xs.map (fun x => (x - stat_mean xs) ^ 2)).sum) / xs.length

/-- `statistics.pstdev` (population standard deviation). -/
noncomputable def stat_pstdev (xs : List ℝ) : ℝ :=
  Real.sqrt (stat_pvariance xs)

open Classical in
/-- `statistics.pstdev(baseline_rmssds) or 0.01`: Python `or` replaces a
falsy (zero) left operand by `0.01`. -/
noncomputable def floored_std (xs : List ℝ) : ℝ :=
  if stat_pstdev xs = 0 then 0.01 else stat_pstdev xs

/-- One invocation of `hrm_notification_handler` (code lines 106-172) on a
frame `data`, with `elapsed = time.time() - baseline_start` supplied by the
environment.  Returns the updated stream state; dropped/ignored frames
return the state unchanged. -/
noncomputable def hrm_notification_handler (baseline_duration_s : ℚ)
    (rr_window_size : ℕ) (st : HrvState) (data : List ℕ) (elapsed : ℚ) :
    HrvState :=
  if data.length < 3 then st
  else
    let flags := data.headI
    if flags &&& 0x10 = 0 then st
    else
      let idx := if flags &&& 0x01 ≠ 0 then 3 else 2
      let rr_values := rr_values_ms data idx
      if rr_values = [] then st
      else
        let w1 := st.rr_ms_window ++ rr_values
        let w2 := if rr_window_size < w1.length then
          w1.drop (w1.length - rr_window_size) else w1
        match compute_rmssd w2 with
        | none => { st with rr_ms_window := w2 }
        | some rmssd =>
            if st.baseline_done = false then
              let bl := st.baseline_rmssds ++ [rmssd]
              if baseline_duration_s ≤ elapsed ∧ 3 ≤ bl.length then
                { rr_ms_window := w2
                  baseline_rmssds := bl
                  baseline_done := true
                  base_mean := stat_mean bl
                  base_std := floored_std bl
                  queue := st.queue }
              else
                { st with
                  rr_ms_window := w2
                  baseline_rmssds := bl }
            else
              { st with
                rr_ms_window := w2
                queue := push_z st.queue ((rmssd - st.base_mean) / st.base_std) }

/-- Folding the handler over a finite sequence of `(frame, elapsed)`
events. -/
noncomputable def handler_run (baseline_duration_s : ℚ) (rr_window_size : ℕ)
    (st : HrvState) (events : List (List ℕ × ℚ)) : HrvState :=
  events.foldl
    (fun s e => hrm_notification_handler baseline_duration_s rr_window_size s e.1 e.2)
    st

lemma diffsOf_ne_nil (w : List ℚ) (h : 3 ≤ w.length) : diffsOf w ≠ [] := by
  have hl : (diffsOf w).length = min w.tail.length w.length :=
    List.length_zipWith _ _ _
  have ht : w.tail.length = w.length - 1 := List.length_tail w
  intro hnil
  rw [hnil] at hl
  simp at hl
  omega

/-- C3: with at least 3 intervals in the window, `compute_rmssd` returns
`sqrt(mean of squared successive differences, in window order) / 1000`
(ms in, seconds out); with fewer than 3 it returns `None`; and on the
window `[900, 950, 1000]` ms it returns `0.05` s. -/
theorem compute_rmssd_spec :
    (∀ w : List ℚ, 3 ≤ w.length →
      compute_rmssd w =
        some (Real.sqrt (((((diffsOf w).map (fun d => d * d)).sum /
          ((diffsOf w).length : ℚ) : ℚ) : ℝ)) / 1000)) ∧
    (∀ w : List ℚ, w.length < 3 → compute_rmssd w = none) ∧
    compute_rmssd [900, 950, 1000] = some (1 / 20) := by
  refine ⟨?_, ?_, ?_⟩
  · intro w hw
    rw [compute_rmssd, if_neg (by omega), if_neg (diffsOf_ne_nil w hw)]
    rfl
  · intro w hw
    rw [compute_rmssd, if_pos hw]
  · rw [compute_rmssd]
    rw [if_neg (by norm_num), if_neg (by simp [diffsOf])]
    have h : mean_sq [900, 950, 1000] = 2500 := by
      norm_num [mean_sq, diffsOf, List.zipWith]
    rw [h]
    have h2 : ((2500 : ℚ) : ℝ) = 50 ^ 2 := by norm_num
    rw [h2, Real.sqrt_sq (by norm_num)]
    norm_num

/-- C3 witness: the general formula applied at the concrete window
`[900, 950, 1000]`. -/
theorem compute_rmssd_spec_witness :
    compute_rmssd [900, 950, 1000] =
      some (Real.sqrt (((((diffsOf [900, 950, 1000]).map (fun d => d * d)).sum /
        ((diffsOf [900, 950, 1000]).length : ℚ) : ℚ) : ℝ)) / 1000) :=
  compute_rmssd_spec.1 [900, 950, 1000] (by norm_num)

theorem pairsOf_getD : ∀ (l : List ℕ) (j : ℕ), 2 * j + 1 < l.length →
    (pairsOf l).getD j 0 =
      ((l.getD (2 * j) 0 : ℚ) + 256 * (l.getD (2 * j + 1) 0 : ℚ)) / 1024 * 1000
  | [], j, h => by simp at h
  | [b], j, h => by simp at h
  | b0 :: b1 :: rest, 0, h => by simp [pairsOf]
  | b0 :: b1 :: rest, j + 1, h => by
      have hr : 2 * j + 1 < rest.length := by
        simp only [List.length_cons] at h; omega
      have ih := pairsOf_getD rest j hr
      have e1 : 2 * (j + 1) = 2 * j + 1 + 1 := by ring
      rw [e1]
      simp only [pairsOf, List.getD_cons_succ]
      exact ih

theorem pairsOf_length : ∀ l : List ℕ, (pairsOf l).length = l.length / 2
  | [] => by simp [pairsOf]
  | [b] => by simp [pairsOf]
  | b0 :: b1 :: rest => by
      have ih := pairsOf_length rest
      simp only [pairsOf, List.length_cons, ih]
      omega

/-- C9: frames shorter than 3 bytes, or whose flags byte lacks the
interval-presence bit `0x10`, leave the stream state unchanged (and, being
a total function, the embedded handler raises nothing).  Otherwise the
frame's intervals are parsed from byte offset 2 (or 3 when the HR-is-uint16
flag bit `0x01` is set) as little-endian unsigned 16-bit values in units of
1/1024 s, converted to ms; the parsed values are appended to the interval
window (trimmed to capacity). -/
theorem frame_parsing_spec :
    (∀ dur size st (data : List ℕ) elapsed, data.length < 3 →
        hrm_notification_handler dur size st data elapsed = st) ∧
    (∀ dur size st (data : List ℕ) elapsed, data.headI &&& 0x10 = 0 →
        hrm_notification_handler dur size st data elapsed = st) ∧
    (∀ (data : List ℕ) idx j, idx + (2 * j + 1) < data.length →
        (rr_values_ms data idx).getD j 0 =
          ((data.getD (idx + 2 * j) 0 : ℚ) +
            256 * (data.getD (idx + 2 * j + 1) 0 : ℚ)) / 1024 * 1000) ∧
    (∀ (data : List ℕ) idx,
        (rr_values_ms data idx).length = (data.length - idx) / 2) ∧
    (∀ dur size st (data : List ℕ) elapsed, 3 ≤ data.length →
        data.headI &&& 0x10 ≠ 0 →
        rr_values_ms data (if data.headI &&& 0x01 ≠ 0 then 3 else 2) ≠ [] →
        (hrm_notification_handler dur size st data elapsed).rr_ms_window =
          (if size < (st.rr_ms_window ++
              rr_values_ms data (if data.headI &&& 0x01 ≠ 0 then 3 else 2)).length then
            (st.rr_ms_window ++
              rr_values_ms data (if data.headI &&& 0x01 ≠ 0 then 3 else 2)).drop
              ((st.rr_ms_window ++
                rr_values_ms data (if data.headI &&& 0x01 ≠ 0 then 3 else 2)).length - size)
          else st.rr_ms_window ++
            rr_values_ms data (if data.headI &&& 0x01 ≠ 0 then 3 else 2))) := by
  refine ⟨?_, ?_, ?_, ?_, ?_⟩
  · intro dur size st data elapsed h
    simp only [hrm_notification_handler]
    rw [if_pos h]
  · intro dur size st data elapsed h
    by_cases hlen : data.length < 3
    · simp only [hrm_notification_handler]; rw [if_pos hlen]
    · simp only [hrm_notification_handler]; rw [if_neg hlen, if_pos h]
  · intro data idx j h
    have hlen : 2 * j + 1 < (data.drop idx).length := by
      rw [List.length_drop]; omega
    rw [rr_values_ms, pairsOf_getD _ _ hlen]
    have h1 : (data.drop idx).getD (2 * j) 0 = data.getD (idx + 2 * j) 0 := by
      simp [List.getD_eq_getElem?_getD, List.getElem?_drop]
    have h2 : (data.drop idx).getD (2 * j + 1) 0 = data.getD (idx + (2 * j + 1)) 0 := by
      simp [List.getD_eq_getElem?_getD, List.getElem?_drop]
    rw [h1, h2]
    have e : idx + (2 * j + 1) = idx + 2 * j + 1 := by ring
    rw [e]
  · intro data idx
    rw [rr_values_ms, pairsOf_length, List.length_drop]
  · intro dur size st data elapsed h3 hbit hrr
    simp only [hrm_notification_handler]
    rw [if_neg (by omega : ¬data.length < 3), if_neg hbit, if_neg hrr]
    split
    · rfl
    · split_ifs <;> rfl

/-- C9 witness: a 2-byte frame is ignored without touching the state. -/
theorem frame_parsing_spec_witness :
    hrm_notification_handler 60 20 initState [1, 2] 0 = initState :=
  frame_parsing_spec.1 60 20 initState [1, 2] 0 (by norm_num)

lemma step_preserves_closed (dur : ℚ) (size : ℕ) (st : HrvState)
    (data : List ℕ) (elapsed : ℚ) (h : st.baseline_done = true) :
    (hrm_notification_handler dur size st data elapsed).baseline_done = true ∧
    (hrm_notification_handler dur size st data elapsed).base_mean = st.base_mean ∧
    (hrm_notification_handler dur size st data elapsed).base_std = st.base_std := by
  simp only [hrm_notification_handler]
  by_cases h1 : data.length < 3
  · rw [if_pos h1]; exact ⟨h, rfl, rfl⟩
  rw [if_neg h1]
  by_cases h2 : data.headI &&& 0x10 = 0
  · rw [if_pos h2]; exact ⟨h, rfl, rfl⟩
  rw [if_neg h2]
  by_cases h3 : rr_values_ms data (if data.headI &&& 0x01 ≠ 0 then 3 else 2) = []
  · rw [if_pos h3]; exact ⟨h, rfl, rfl⟩
  rw [if_neg h3]
  split
  · exact ⟨h, rfl, rfl⟩
  · rw [h]
    rw [if_neg (by simp)]
    exact ⟨rfl, rfl, rfl⟩

lemma run_preserves_closed : ∀ (events : List (List ℕ × ℚ)) (dur : ℚ)
    (size : ℕ) (st : HrvState), st.baseline_done = true →
    (handler_run dur size st events).baseline_done = true ∧
    (handler_run dur size st events).base_mean = st.base_mean ∧
    (handler_run dur size st events).base_std = st.base_std := by
  intro events
  induction events with
  | nil => intro dur size st h; exact ⟨h, rfl, rfl⟩
  | cons e es ih =>
      intro dur size st h
      have hs := step_preserves_closed dur size st e.1 e.2 h
      have hr := ih dur size (hrm_notification_handler dur size st e.1 e.2) hs.1
      have hrun : handler_run dur size st (e :: es) =
          handler_run dur size (hrm_notification_handler dur size st e.1 e.2) es := rfl
      rw [hrun]
      exact ⟨hr.1, hr.2.1.trans hs.2.1, hr.2.2.trans hs.2.2⟩

lemma step_closes_iff (dur : ℚ) (size : ℕ) (st : HrvState)
    (data : List ℕ) (elapsed : ℚ) (h : st.baseline_done = false) :
    (hrm_notification_handler dur size st data elapsed).baseline_done = true ↔
      ((hrm_notification_handler dur size st data elapsed).baseline_rmssds.length =
          st.baseline_rmssds.length + 1 ∧
        dur ≤ elapsed ∧ 3 ≤ st.baseline_rmssds.length + 1) := by
  simp only [hrm_notification_handler]
  by_cases h1 : data.length < 3
  · rw [if_pos h1, h]; simp
  rw [if_neg h1]
  by_cases h2 : data.headI &&& 0x10 = 0
  · rw [if_pos h2, h]; simp
  rw [if_neg h2]
  by_cases h3 : rr_values_ms data (if data.headI &&& 0x01 ≠ 0 then 3 else 2) = []
  · rw [if_pos h3, h]; simp
  rw [if_neg h3]
  split
  · rw [h]; simp
  · rename_i rmssd heq
    rw [h, if_pos rfl]
    by_cases hc : dur ≤ elapsed ∧ 3 ≤ (st.baseline_rmssds ++ [rmssd]).length
    · rw [if_pos hc]
      refine iff_of_true rfl ⟨by simp, hc.1, by simpa using hc.2⟩
    · rw [if_neg hc]
      refine iff_of_false (by simp) ?_
      rintro ⟨-, hd, hn⟩
      exact hc ⟨hd, by simpa using hn⟩

/-- C4: the baseline calibrator transitions Collecting → Closed exactly
once.  A handler invocation from an open state closes the baseline iff an
RMSSD sample was produced this frame (the accumulator grew by one) and
both `elapsed ≥ duration` and `count ≥ 3` hold for it — so it never
closes with fewer than 3 collected samples, even past the duration, and
closes on the first sample satisfying both.  Once closed, the frozen
`base_mean`/`base_std` survive any further event sequence unchanged. -/
theorem baseline_closes_exactly_once :
    (∀ dur size (st : HrvState) events, st.baseline_done = true →
      (handler_run dur size st events).baseline_done = true ∧
      (handler_run dur size st events).base_mean = st.base_mean ∧
      (handler_run dur size st events).base_std = st.base_std) ∧
    (∀ dur size (st : HrvState) data elapsed, st.baseline_done = false →
      ((hrm_notification_handler dur size st data elapsed).baseline_done = true ↔
        ((hrm_notification_handler dur size st data elapsed).baseline_rmssds.length =
            st.baseline_rmssds.length + 1 ∧
          dur ≤ elapsed ∧ 3 ≤ st.baseline_rmssds.length + 1))) :=
  ⟨fun dur size st events h => run_preserves_closed events dur size st h,
   fun dur size st data elapsed h => step_closes_iff dur size st data elapsed h⟩

/-- C4 witness: a closed state's frozen mean/std survive a further frame
carrying intervals. -/
theorem baseline_closes_exactly_once_witness :
    (handler_run 60 20 ⟨[], [0, 0, 0], true, 5, 3, []⟩
      [([16, 60, 0, 4], 70)]).baseline_done = true ∧
    (handler_run 60 20 ⟨[], [0, 0, 0], true, 5, 3, []⟩
      [([16, 60, 0, 4], 70)]).base_mean = 5 ∧
    (handler_run 60 20 ⟨[], [0, 0, 0], true, 5, 3, []⟩
      [([16, 60, 0, 4], 70)]).base_std = 3 :=
  baseline_closes_exactly_once.1 60 20 ⟨[], [0, 0, 0], true, 5, 3, []⟩
    [([16, 60, 0, 4], 70)] rfl

lemma floored_std_props (xs : List ℝ) :
    floored_std xs ≠ 0 ∧
    (stat_pstdev xs ≠ 0 → floored_std xs = stat_pstdev xs) ∧
    (stat_pstdev xs = 0 → floored_std xs = 0.01) := by
  by_cases hz : stat_pstdev xs = 0
  · rw [floored_std, if_pos hz]
    exact ⟨by norm_num, fun hne => absurd hz hne, fun _ => rfl⟩
  · rw [floored_std, if_neg hz]
    exact ⟨hz, fun _ => rfl, fun h0 => absurd h0 hz⟩

/-- C5: the std divisor in use after the baseline closes is never zero:
it is the population standard deviation of the collected baseline samples
when that is nonzero, and the floor `0.01` when it is zero; the closing
invocation installs exactly this floored value as `base_std`. -/
theorem floored_std_spec :
    (∀ xs : List ℝ, floored_std xs ≠ 0 ∧
      (stat_pstdev xs ≠ 0 → floored_std xs = stat_pstdev xs) ∧
      (stat_pstdev xs = 0 → floored_std xs = 0.01)) ∧
    (∀ dur size (st : HrvState) data elapsed, st.baseline_done = false →
      (hrm_notification_handler dur size st data elapsed).baseline_done = true →
      (hrm_notification_handler dur size st data elapsed).base_std =
        floored_std ((hrm_notification_handler dur size st data elapsed).baseline_rmssds) ∧
      (hrm_notification_handler dur size st data elapsed).base_std ≠ 0) := by
  refine ⟨floored_std_props, ?_⟩
  intro dur size st data elapsed h hclose
  revert hclose
  simp only [hrm_notification_handler]
  by_cases h1 : data.length < 3
  · rw [if_pos h1, h]; intro hclose; exact absurd hclose (by simp)
  rw [if_neg h1]
  by_cases h2 : data.headI &&& 0x10 = 0
  · rw [if_pos h2, h]; intro hclose; exact absurd hclose (by simp)
  rw [if_neg h2]
  by_cases h3 : rr_values_ms data (if data.headI &&& 0x01 ≠ 0 then 3 else 2) = []
  · rw [if_pos h3, h]; intro hclose; exact absurd hclose (by simp)
  rw [if_neg h3]
  split
  · rw [h]; intro hclose; exact absurd hclose (by simp)
  · rename_i rmssd heq
    rw [h, if_pos rfl]
    by_cases hc : dur ≤ elapsed ∧ 3 ≤ (st.baseline_rmssds ++ [rmssd]).length
    · rw [if_pos hc]
      intro _
      exact ⟨rfl, (floored_std_props _).1⟩
    · rw [if_neg hc]
      intro hclose
      exact absurd hclose (by simp)

/-- C5 witness: five identical baseline samples (population std 0) yield
the floor value 0.01, per the spec's example. -/
theorem floored_std_spec_witness :
    stat_pstdev [(0.05 : ℝ), 0.05, 0.05, 0.05, 0.05] = 0 ∧
    floored_std [(0.05 : ℝ), 0.05, 0.05, 0.05, 0.05] = 0.01 := by
  have hp : stat_pstdev [(0.05 : ℝ), 0.05, 0.05, 0.05, 0.05] = 0 := by
    have hv : stat_pvariance [(0.05 : ℝ), 0.05, 0.05, 0.05, 0.05] = 0 := by
      norm_num [stat_pvariance, stat_mean]
    rw [stat_pstdev, hv, Real.sqrt_zero]
  exact ⟨hp, (floored_std_spec.1 _).2.2 hp⟩

/-- C2: the z-score queue is created as `asyncio.Queue()` — `maxsize = 0`,
i.e. unbounded — so `put_nowait` always enqueues and never raises
`QueueFull`: a push onto a queue still holding an undrained value appends
the new value instead of dropping it, contradicting the dead
`except QueueFull` drop path and its comment. -/
theorem queue_push_never_drops :
    (∀ (q : List ℝ) (z : ℝ), queue_put_nowait 0 q z = some (q ++ [z])) ∧
    push_z [(1 : ℝ) / 2] 1 = [1 / 2, 1] ∧
    push_z [(1 : ℝ) / 2] 1 ≠ [(1 : ℝ) / 2] := by
  refine ⟨?_, ?_, ?_⟩
  · intro q z
    rw [queue_put_nowait, if_neg (by simp)]
  · rw [push_z, queue_put_nowait, if_neg (by simp)]
    rfl
  · rw [push_z, queue_put_nowait, if_neg (by simp)]
    simp

end polar_hrv

/-- Failure modes of the two `compute_pre_post` implementations:
`noSamples` = `ValueError("No samples …")`; `insufficientPre` and
`insufficientPost` = the "No pre(post)-window samples collected" value
errors of `session_stress_csv.py`; `zeroDivision` = the
`ZeroDivisionError` that `sum(vals)/len(vals)` raises on an empty
window. -/
inductive SummaryError where
  | noSamples
  | insufficientPre
  | insufficientPost
  | zeroDivision
deriving DecidableEq, Repr

/-- `sum(vals) / len(vals)`. -/
def mean_q (xs : List ℚ) : ℚ := xs.sum / xs.length

namespace polar_run

def BASELINE_SECONDS : ℚ := 60
def PRE_WINDOW_SECONDS : ℚ := 120
def POST_WINDOW_SECONDS : ℚ := 60

/-- A per-tick record `(t_rel, z, tempo, pitch, volume)`. -/
structure Sample where
  t_rel : ℚ
  z : ℚ
  tempo : ℚ
  pitch : ℚ
  volume : ℚ
deriving DecidableEq, Repr

/-- `compute_pre_post` of `polar_run.py` (lines 137-158).  No emptiness
guard on the windows: an empty pre or post window reaches
`sum(vals)/len(vals)` and raises `ZeroDivisionError` (pre is computed
first). -/
def compute_pre_post (samples : List Sample) :
    Except SummaryError (ℚ × ℚ × ℚ × ℚ × ℕ × ℕ) :=
  match samples.getLast? with
  | none => Except.error SummaryError.noSamples
  | some last =>
      let pre_vals :=
        (samples.filter (fun s => decide (s.t_rel ≤ PRE_WINDOW_SECONDS))).map Sample.z
      let post_vals :=
        (samples.filter (fun s =>
          decide (max 0 (last.t_rel - POST_WINDOW_SECONDS) ≤ s.t_rel))).map Sample.z
      if pre_vals = [] then Except.error SummaryError.zeroDivision
      else if post_vals = [] then Except.error SummaryError.zeroDivision
      else Except.ok (mean_q pre_vals, mean_q post_vals,
        mean_q post_vals - mean_q pre_vals, last.t_rel,
        pre_vals.length, post_vals.length)

/-- The sample appended for a tick: this tick's `(t_rel, z)` paired with
the *currently held* `AudioParams` fields (`current_params` before
`apply_biofeedback` runs). -/
def sample_of (p : controller.AudioParams) (inp : ℚ × ℚ) : Sample :=
  ⟨inp.1, inp.2, p.tempo, p.pitch, p.volume⟩

/-- `apply_biofeedback` for a tick: `update_audio_params` with this tick's
z-score, `faa_z = None`, `is_baseline = (t_rel <= BASELINE_SECONDS)`,
`is_post_window = False`. -/
def params_next (p : controller.AudioParams) (inp : ℚ × ℚ) :
    controller.AudioParams :=
  controller.update_audio_params p (some inp.2) none
    (decide (inp.1 ≤ BASELINE_SECONDS)) false

/-- One iteration of the `run_session` streaming loop on a `(t_rel, z)`
tick: the sample is appended with the current `AudioParams` fields, and
only then is the controller invoked with this tick's z-score. -/
def session_step (st : controller.AudioParams × List Sample) (inp : ℚ × ℚ) :
    controller.AudioParams × List Sample :=
  (params_next st.1 inp, st.2 ++ [sample_of st.1 inp])

/-- The `run_session` tick loop folded over a scripted `(t_rel, z)`
sequence, starting from the dataclass-default `AudioParams` and an empty
sample list. -/
def run_session (inputs : List (ℚ × ℚ)) :
    controller.AudioParams × List Sample :=
  inputs.foldl session_step (controller.AudioParams.init, [])

end polar_run

namespace session_stress_csv

def BASELINE_SECONDS : ℚ := 120
def POST_WINDOW_SECONDS : ℚ := 60

/-- `compute_pre_post` of `session_stress_csv.py` (lines 84-111), on
`(t_rel, z)` pairs: unlike the `polar_run.py` version it raises explicit
"No pre(post)-window samples collected" value errors when a window is
empty. -/
def compute_pre_post (samples : List (ℚ × ℚ)) :
    Except SummaryError (ℚ × ℚ × ℚ × ℚ × ℕ × ℕ) :=
  match samples.getLast? with
  | none => Except.error SummaryError.noSamples
  | some last =>
      let pre_vals :=
        (samples.filter (fun s => decide (s.1 ≤ BASELINE_SECONDS))).map Prod.snd
      let post_vals :=
        (samples.filter (fun s =>
          decide (max 0 (last.1 - POST_WINDOW_SECONDS) ≤ s.1))).map Prod.snd
      if pre_vals = [] then Except.error SummaryError.insufficientPre
      else if post_vals = [] then Except.error SummaryError.insufficientPost
      else Except.ok (mean_q pre_vals, mean_q post_vals,
        mean_q post_vals - mean_q pre_vals, last.1,
        pre_vals.length, post_vals.length)

end session_stress_csv

/-- C8 (amended): for nonempty sample lists, both `compute_pre_post`
implementations return `pre_mean` = mean of `z` over samples with
`t_rel ≤ pre-window bound`, `post_mean` = mean of `z` over samples with
`t_rel ≥ max(0, t_last − post_window)`, and
`delta = post_mean − pre_mean`; when a window is empty, the
`session_stress_csv.py` version fails with the dedicated
insufficient-data value errors, while the `polar_run.py` version reaches
`sum(vals)/len(vals)` and fails with `ZeroDivisionError` instead. -/
theorem compute_pre_post_spec :
    (∀ (samples : List polar_run.Sample) (last : polar_run.Sample)
        (pre post : List ℚ),
      samples.getLast? = some last →
      pre = (samples.filter (fun s =>
        decide (s.t_rel ≤ polar_run.PRE_WINDOW_SECONDS))).map polar_run.Sample.z →
      post = (samples.filter (fun s =>
        decide (max 0 (last.t_rel - polar_run.POST_WINDOW_SECONDS) ≤ s.t_rel))).map
          polar_run.Sample.z →
      (pre ≠ [] → post ≠ [] →
        polar_run.compute_pre_post samples =
          Except.ok (mean_q pre, mean_q post, mean_q post - mean_q pre,
            last.t_rel, pre.length, post.length)) ∧
      (pre = [] →
        polar_run.compute_pre_post samples = Except.error SummaryError.zeroDivision) ∧
      (pre ≠ [] → post = [] →
        polar_run.compute_pre_post samples = Except.error SummaryError.zeroDivision)) ∧
    (∀ (samples : List (ℚ × ℚ)) (last : ℚ × ℚ) (pre post : List ℚ),
      samples.getLast? = some last →
      pre = (samples.filter (fun s =>
        decide (s.1 ≤ session_stress_csv.BASELINE_SECONDS))).map Prod.snd →
      post = (samples.filter (fun s =>
        decide (max 0 (last.1 - session_stress_csv.POST_WINDOW_SECONDS) ≤ s.1))).map
          Prod.snd →
      (pre ≠ [] → post ≠ [] →
        session_stress_csv.compute_pre_post samples =
          Except.ok (mean_q pre, mean_q post, mean_q post - mean_q pre,
            last.1, pre.length, post.length)) ∧
      (pre = [] →
        session_stress_csv.compute_pre_post samples =
          Except.error SummaryError.insufficientPre) ∧
      (pre ≠ [] → post = [] →
        session_stress_csv.compute_pre_post samples =
          Except.error SummaryError.insufficientPost)) := by
  constructor
  · intro samples last pre post hlast hpre hpost
    subst hpre; subst hpost
    refine ⟨?_, ?_, ?_⟩
    · intro h1 h2
      simp only [polar_run.compute_pre_post, hlast]
      rw [if_neg h1, if_neg h2]
    · intro h1
      simp only [polar_run.compute_pre_post, hlast]
      rw [if_pos h1]
    · intro h1 h2
      simp only [polar_run.compute_pre_post, hlast]
      rw [if_neg h1, if_pos h2]
  · intro samples last pre post hlast hpre hpost
    subst hpre; subst hpost
    refine ⟨?_, ?_, ?_⟩
    · intro h1 h2
      simp only [session_stress_csv.compute_pre_post, hlast]
      rw [if_neg h1, if_neg h2]
    · intro h1
      simp only [session_stress_csv.compute_pre_post, hlast]
      rw [if_pos h1]
    · intro h1 h2
      simp only [session_stress_csv.compute_pre_post, hlast]
      rw [if_neg h1, if_pos h2]

/-- C8 witness: a two-sample run through the `polar_run.py` version with
one sample in each window. -/
theorem compute_pre_post_spec_witness :
    polar_run.compute_pre_post
        [⟨10, 2, 1, -2, 60⟩, ⟨200, 4, 1, -2, 60⟩] =
      Except.ok (mean_q [2], mean_q [4], mean_q [4] - mean_q [2],
        (⟨200, 4, 1, -2, 60⟩ : polar_run.Sample).t_rel,
        ([2] : List ℚ).length, ([4] : List ℚ).length) :=
  (compute_pre_post_spec.1 [⟨10, 2, 1, -2, 60⟩, ⟨200, 4, 1, -2, 60⟩]
      ⟨200, 4, 1, -2, 60⟩ [2] [4] (by rfl)
      (by norm_num [List.filter_cons, polar_run.PRE_WINDOW_SECONDS])
      (by norm_num [List.filter_cons, polar_run.POST_WINDOW_SECONDS])).1
    (by simp) (by simp)

/-- C8 counterexample: a single sample at `t_rel = 130` leaves the pre
window (`t_rel ≤ 120`) empty; the `polar_run.py` summary then fails with
`ZeroDivisionError`, not with an insufficient-data error. -/
theorem pre_window_empty_raises_zero_division :
    polar_run.compute_pre_post [⟨130, 1, 1, -2, 60⟩] =
      Except.error SummaryError.zeroDivision ∧
    SummaryError.zeroDivision ≠ SummaryError.insufficientPre ∧
    SummaryError.zeroDivision ≠ SummaryError.insufficientPost ∧
    SummaryError.zeroDivision ≠ SummaryError.noSamples := by
  refine ⟨?_, by simp, by simp, by simp⟩
  simp only [polar_run.compute_pre_post, List.getLast?_singleton]
  norm_num [List.filter_cons, polar_run.PRE_WINDOW_SECONDS]

namespace polar_run

lemma foldl_session_cons (x : ℚ × ℚ) (xs : List (ℚ × ℚ))
    (p : controller.AudioParams) (acc : List Sample) :
    (x :: xs).foldl session_step (p, acc) =
      xs.foldl session_step (params_next p x, acc ++ [sample_of p x]) := rfl

lemma session_params_indep : ∀ (inputs : List (ℚ × ℚ))
    (p : controller.AudioParams) (acc : List Sample),
    (inputs.foldl session_step (p, acc)).1 =
      (inputs.foldl session_step (p, [])).1 := by
  intro inputs
  induction inputs with
  | nil => intro p acc; rfl
  | cons x xs ih =>
      intro p acc
      rw [foldl_session_cons, foldl_session_cons]
      rw [ih (params_next p x) (acc ++ [sample_of p x]),
        ih (params_next p x) ([] ++ [sample_of p x])]

lemma session_samples_acc : ∀ (inputs : List (ℚ × ℚ))
    (p : controller.AudioParams) (acc : List Sample),
    (inputs.foldl session_step (p, acc)).2 =
      acc ++ (inputs.foldl session_step (p, [])).2 := by
  intro inputs
  induction inputs with
  | nil => intro p acc; simp
  | cons x xs ih =>
      intro p acc
      rw [foldl_session_cons, foldl_session_cons,
        ih (params_next p x) (acc ++ [sample_of p x]),
        ih (params_next p x) ([] ++ [sample_of p x])]
      simp

lemma session_samples_length : ∀ (inputs : List (ℚ × ℚ))
    (p : controller.AudioParams),
    (inputs.foldl session_step (p, [])).2.length = inputs.length := by
  intro inputs
  induction inputs with
  | nil => intro p; rfl
  | cons x xs ih =>
      intro p
      rw [foldl_session_cons, session_samples_acc]
      simp [ih]

lemma session_sample_getD : ∀ (inputs : List (ℚ × ℚ))
    (p : controller.AudioParams) (i : ℕ), i < inputs.length →
    ((inputs.foldl session_step (p, [])).2).getD i ⟨0, 0, 0, 0, 0⟩ =
      sample_of ((inputs.take i).foldl session_step (p, [])).1
        (inputs.getD i (0, 0)) := by
  intro inputs
  induction inputs with
  | nil => intro p i h; simp at h
  | cons x xs ih =>
      intro p i h
      cases i with
      | zero =>
          rw [foldl_session_cons, session_samples_acc]
          rfl
      | succ j =>
          have hj : j < xs.length := by
            simp only [List.length_cons] at h; omega
          rw [foldl_session_cons, session_samples_acc]
          have hshift :
              (([] ++ [sample_of p x] ++
                (xs.foldl session_step (params_next p x, [])).2)).getD (j + 1)
                  ⟨0, 0, 0, 0, 0⟩ =
              ((xs.foldl session_step (params_next p x, [])).2).getD j
                ⟨0, 0, 0, 0, 0⟩ := rfl
          rw [hshift, ih (params_next p x) j hj]
          have htake : (x :: xs).take (j + 1) = x :: xs.take j :=
            List.take_succ_cons
          rw [htake, foldl_session_cons,
            session_params_indep (xs.take j) (params_next p x) ([] ++ [sample_of p x])]
          rfl

/-- C10: in the `run_session` tick loop, the tempo/pitch/volume recorded
in the sample appended for tick `i` are exactly the `AudioParams`
produced by tick `i-1`'s controller update (for `i = 0`, the dataclass
default): each tick appends its sample *before* invoking the controller
with that tick's z-score, so the logged parameters lag the paired
z-score by one tick.  Also one sample is appended per tick. -/
theorem samples_record_previous_tick_params :
    ((run_session []).1 = controller.AudioParams.init) ∧
    (∀ inputs : List (ℚ × ℚ), (run_session inputs).2.length = inputs.length) ∧
    (∀ (inputs : List (ℚ × ℚ)) (i : ℕ), i < inputs.length →
      (run_session inputs).2.getD i ⟨0, 0, 0, 0, 0⟩ =
        ⟨(inputs.getD i (0, 0)).1, (inputs.getD i (0, 0)).2,
          (run_session (inputs.take i)).1.tempo,
          (run_session (inputs.take i)).1.pitch,
          (run_session (inputs.take i)).1.volume⟩) :=
  ⟨rfl, fun inputs => session_samples_length inputs _,
   fun inputs i h => session_sample_getD inputs _ i h⟩

/-- C10 witness: with two scripted ticks, the second logged sample pairs
tick 1's `(t_rel, z)` with the parameters produced by tick 0's update. -/
theorem samples_record_previous_tick_params_witness :
    (run_session [(0, 1), (70, 2)]).2.getD 1 ⟨0, 0, 0, 0, 0⟩ =
      ⟨(([(0, 1), (70, 2)] : List (ℚ × ℚ)).getD 1 (0, 0)).1,
        (([(0, 1), (70, 2)] : List (ℚ × ℚ)).getD 1 (0, 0)).2,
        (run_session ([(0, 1), (70, 2)].take 1)).1.tempo,
        (run_session ([(0, 1), (70, 2)].take 1)).1.pitch,
        (run_session ([(0, 1), (70, 2)].take 1)).1.volume⟩ :=
  samples_record_previous_tick_params.2.2 [(0, 1), (70, 2)] 1 (by norm_num)

end polar_run
